import Mathlib

/-!
Verification development for the pub-sub log aggregator with idempotent
consumer (src/src/database.py, src/src/processor.py, src/src/main.py,
src/src/models.py).

The SQLite-backed deduplication store is modelled as the set of
`(topic, event_id)` rows of the `processed_events` table, kept as a list
(newest first, matching the insertion order the code produces).  Each
SQLite statement executed by the code is atomic, as it is in SQLite; the
possibility of an I/O fault inside a statement is made explicit with a
`fault` flag on the operations whose Python source handles (or can
encounter) exceptions.
-/

/-- One row of the `processed_events` table, projected to the dedup key
`(topic, event_id)` (the `id` and `processed_at` columns play no role in
any dedup decision). -/
abbrev Store := List (String × String)

/-- `Database.is_processed` (database.py:62-80):
`SELECT 1 FROM processed_events WHERE topic = ? AND event_id = ? LIMIT 1`,
returning whether a row was found. -/
def is_processed (s : Store) (topic event_id : String) : Bool :=
  s.contains (topic, event_id)

/-- The SQL statement
`INSERT OR IGNORE INTO processed_events (topic, event_id) VALUES (?, ?)`
(database.py:97): inserts the row unless the `UNIQUE(topic, event_id)`
constraint (database.py:48) already holds a row with the same key, and
reports `cursor.rowcount > 0`, i.e. whether a row was actually inserted.
The statement is atomic. -/
def sqlite_insert_or_ignore (s : Store) (topic event_id : String) :
    Bool × Store :=
  if s.contains (topic, event_id) then (false, s)
  else (true, (topic, event_id) :: s)

/-- The `aiosqlite` execution of the insert (database.py:95-103): either the
statement runs atomically, or an I/O / engine fault is raised before any
row is written.  The `fault` flag says which of the two the environment
does on this call. -/
def aiosqlite_insert (fault : Bool) (s : Store) (topic event_id : String) :
    Except String (Bool × Store) :=
  if fault then Except.error "sqlite I/O error"
  else Except.ok (sqlite_insert_or_ignore s topic event_id)

/-- `Database.mark_processed` (database.py:82-113): runs the
`INSERT OR IGNORE` and returns `rowcount > 0`; any exception is caught by
the `except Exception` clause (database.py:111-113), logged, and turned
into the return value `False`. -/
def mark_processed (fault : Bool) (s : Store) (topic event_id : String) :
    Bool × Store :=
  match aiosqlite_insert fault s topic event_id with
  | Except.ok r => r
  | Except.error _ => (false, s)

/-- `Database._init_db` (database.py:33-60), run by `Database.__init__` on
open or reopen: `CREATE TABLE IF NOT EXISTS processed_events ...` keeps
every existing row when the database file already holds the table
(`some s`), and creates an empty table in a fresh file (`none`). -/
def init_db : Option Store → Store
  | some s => s
  | none => []

/-- `Database.get_all_topics` (database.py:115-120):
`SELECT DISTINCT topic FROM processed_events`. -/
def get_all_topics (s : Store) : List String :=
  (s.map Prod.fst).dedup

/-- `Database.get_count` (database.py:146-151):
`SELECT COUNT(*) FROM processed_events`. -/
def get_count (s : Store) : Nat :=
  s.length

/-- The `payload` mapping of an event: an opaque JSON object, modelled as
an association list of string keys to opaque string values; the core never
inspects it (models.py:22, spec payload contract). -/
abbrev Payload := List (String × String)

/-- `Event` (models.py:9-49), the validated value type: topic, event_id,
timestamp, source, payload. -/
structure Event where
  topic : String
  event_id : String
  timestamp : String
  source : String
  payload : Payload
deriving DecidableEq

/-- The `self.stats` dictionary of `EventProcessor` (processor.py:26-30):
the three process-wide counters.  They are natural numbers: the code only
ever adds 1 to them starting from 0. -/
structure Stats where
  received : Nat
  unique_processed : Nat
  duplicate_dropped : Nat
deriving DecidableEq

/-- `EventProcessor.get_stats` (processor.py:146-148): `self.stats.copy()`
— the value of the three counters at the moment of the call, returned as a
fresh dictionary (a value, not a live reference). -/
def get_stats (stats : Stats) : Stats :=
  stats

/-- Componentwise order on the counters, used to state monotonicity. -/
def Stats.le (a b : Stats) : Prop :=
  a.received ≤ b.received ∧
    a.unique_processed ≤ b.unique_processed ∧
      a.duplicate_dropped ≤ b.duplicate_dropped

instance : DecidablePred fun p : Stats × Stats => p.1.le p.2 := by
  intro p
  unfold Stats.le
  infer_instance

/-- `EventProcessor._process_event` (processor.py:86-143) run to
completion in isolation (no interleaving with other workers):
increment `received`; `is_processed` check — on hit increment
`duplicate_dropped` and return; otherwise `mark_processed` (whose SQLite
statement faults iff `markFault`), incrementing `unique_processed` if it
returned `True` and `duplicate_dropped` if it returned `False`. -/
def process_event (markFault : Bool) (stats : Stats) (s : Store)
    (ev : Event) : Stats × Store :=
  let stats := { stats with received := stats.received + 1 }
  if is_processed s ev.topic ev.event_id then
    ({ stats with duplicate_dropped := stats.duplicate_dropped + 1 }, s)
  else
    match mark_processed markFault s ev.topic ev.event_id with
    | (true, s') =>
        ({ stats with unique_processed := stats.unique_processed + 1 }, s')
    | (false, s') =>
        ({ stats with duplicate_dropped := stats.duplicate_dropped + 1 }, s')

/-- Outcome of `await event_queue.put(event)` on the bounded
`asyncio.Queue` (main.py:48, main.py:95): when the queue is not full the
event is appended and the coroutine returns; when the queue is full the
coroutine suspends, awaiting free space — `Queue.put` never raises
`asyncio.QueueFull` (only `put_nowait` does). -/
inductive PutResult where
  | enqueued (q : List Event)
  | suspended
deriving DecidableEq

/-- `asyncio.Queue.full()`: true iff the queue was created with
`maxsize > 0` and currently holds at least `maxsize` items. -/
def queue_full (maxsize : Nat) (q : List Event) : Bool :=
  decide (0 < maxsize) && decide (maxsize ≤ q.length)

/-- `await event_queue.put(event)` (main.py:95, main.py:133). -/
def asyncio_queue_put (maxsize : Nat) (q : List Event) (ev : Event) :
    PutResult :=
  if queue_full maxsize q then PutResult.suspended
  else PutResult.enqueued (q ++ [ev])

/-- What the `POST /publish` handler does, as observed by its caller. -/
inductive PublishResult where
  /-- The 200 response built at main.py:99-104, with the new queue. -/
  | accepted (event_id : String) (q : List Event)
  /-- The 503 response of the `except asyncio.QueueFull` clause
  (main.py:106-111). -/
  | rejectedQueueFull
  /-- The handler is parked inside `await event_queue.put(event)`: no
  response has been produced and the event is still pending admission. -/
  | awaitingSpace
deriving DecidableEq

/-- `publish_event` (main.py:81-114) on an already-validated event: it
runs `await event_queue.put(event)` and returns the 200 body.  The
`except asyncio.QueueFull` branch would return a 503, but `Queue.put`
suspends instead of raising when the queue is full, so a full queue parks
the handler. -/
def publish_event (maxsize : Nat) (q : List Event) (ev : Event) :
    PublishResult :=
  match asyncio_queue_put maxsize q ev with
  | PutResult.enqueued q' => PublishResult.accepted ev.event_id q'
  | PutResult.suspended => PublishResult.awaitingSpace

/-- The characters Python `str.strip()` strips: exactly those `c` with
`c.isspace()` — tab through carriage return (U+0009-U+000D), the file,
group, record and unit separators (U+001C-U+001F), space, next line
(U+0085), no-break space (U+00A0), Ogham space mark (U+1680), the
Unicode spaces U+2000-U+200A, the line and paragraph separators
(U+2028, U+2029), narrow no-break space (U+202F), medium mathematical
space (U+205F) and ideographic space (U+3000). -/
def pyIsSpace (c : Char) : Bool :=
  let n := c.toNat
  (0x9 ≤ n && n ≤ 0xd) || (0x1c ≤ n && n ≤ 0x1f) || n = 0x20 ||
    n = 0x85 || n = 0xa0 || n = 0x1680 ||
    (0x2000 ≤ n && n ≤ 0x200a) || n = 0x2028 || n = 0x2029 ||
    n = 0x202f || n = 0x205f || n = 0x3000

/-- `not v or not v.strip()` (models.py:36): the string is empty or
consists only of whitespace. -/
def py_blank (v : String) : Bool :=
  v.toList.all pyIsSpace

/-- Numeric value of two decimal digit characters, `none` if either
character is not a decimal digit (strict-digit model of Python
`int(s[i:i+2])` on the fixed-width slices taken by the ISO parser). -/
def digits2 (a b : Char) : Option Nat :=
  if a.isDigit && b.isDigit then
    some ((a.toNat - 48) * 10 + (b.toNat - 48))
  else none

/-- Gregorian leap year, as in `datetime._is_leap`. -/
def isLeap (y : Nat) : Bool :=
  y % 4 = 0 && (y % 100 ≠ 0 || y % 400 = 0)

/-- `datetime._days_in_month`. -/
def daysInMonth (y m : Nat) : Nat :=
  if m = 2 then (if isLeap y then 29 else 28)
  else if m = 4 || m = 6 || m = 9 || m = 11 then 30
  else 31

/-- Modelled from the CPython `datetime._parse_isoformat_date` grammar:
exactly `YYYY-MM-DD`, with the ranges checked by the `date` constructor
(year 1-9999, month 1-12, day 1-days_in_month). -/
def parse_isoformat_date : List Char → Bool
  | [y1, y2, y3, y4, '-', m1, m2, '-', d1, d2] =>
    match digits2 y1 y2, digits2 y3 y4, digits2 m1 m2, digits2 d1 d2 with
    | some yh, some yl, some m, some d =>
        let y := yh * 100 + yl
        decide (1 ≤ y) && decide (1 ≤ m) && decide (m ≤ 12) &&
          decide (1 ≤ d) && decide (d ≤ daysInMonth y m)
    | _, _, _, _ => false
  | _ => false

/-- Modelled from CPython `datetime._parse_hh_mm_ss_ff`:
`HH[:MM[:SS[.fff[fff]]]]` with the fraction exactly 3 or 6 digits;
returns `(hour, minute, second, microsecond)`. -/
def parse_hh_mm_ss_ff : List Char → Option (Nat × Nat × Nat × Nat)
  | [h1, h2] =>
    (digits2 h1 h2).map fun h => (h, 0, 0, 0)
  | [h1, h2, ':', m1, m2] =>
    match digits2 h1 h2, digits2 m1 m2 with
    | some h, some m => some (h, m, 0, 0)
    | _, _ => none
  | [h1, h2, ':', m1, m2, ':', s1, s2] =>
    match digits2 h1 h2, digits2 m1 m2, digits2 s1 s2 with
    | some h, some m, some s => some (h, m, s, 0)
    | _, _, _ => none
  | h1 :: h2 :: ':' :: m1 :: m2 :: ':' :: s1 :: s2 :: '.' :: frac =>
    match digits2 h1 h2, digits2 m1 m2, digits2 s1 s2 with
    | some h, some m, some s =>
      if frac.all Char.isDigit then
        if frac.length = 3 then
          some (h, m, s, (frac.foldl (fun n c => n * 10 + (c.toNat - 48)) 0) * 1000)
        else if frac.length = 6 then
          some (h, m, s, frac.foldl (fun n c => n * 10 + (c.toNat - 48)) 0)
        else none
      else none
    | _, _, _ => none
  | _ => none

/-- The range checks of the `time` constructor. -/
def validTime (t : Nat × Nat × Nat × Nat) : Bool :=
  decide (t.1 ≤ 23) && decide (t.2.1 ≤ 59) && decide (t.2.2.1 ≤ 59)

/-- The range check of the `timezone` constructor: the offset must lie
strictly between -24h and +24h (the sign does not affect the magnitude
check). -/
def validTzOffset (t : Nat × Nat × Nat × Nat) : Bool :=
  decide (t.1 * 3600000000 + t.2.1 * 60000000 + t.2.2.1 * 1000000 + t.2.2.2
    < 86400000000)

/-- Modelled from CPython `datetime._parse_isoformat_time`: a time
`HH[:MM[:SS[.fff[fff]]]]` optionally followed by a timezone
`(+|-)HH:MM[:SS[.ffffff]]` (5, 8 or 15 characters after the sign), the
split being at the first `+` or `-` in the string. -/
def parse_isoformat_time (s : List Char) : Bool :=
  if s.length < 2 then false
  else
    match s.findIdx? fun c => c = '-' || c = '+' with
    | none =>
      match parse_hh_mm_ss_ff s with
      | some t => validTime t
      | none => false
    | some i =>
      let timestr := s.take i
      let tzstr := s.drop (i + 1)
      if tzstr.length = 5 || tzstr.length = 8 || tzstr.length = 15 then
        match parse_hh_mm_ss_ff timestr, parse_hh_mm_ss_ff tzstr with
        | some t, some tz => validTime t && validTzOffset tz
        | _, _ => false
      else false

/-- Modelled from CPython `datetime.fromisoformat` (the documented
strict grammar of Python 3.10, the inverse of `datetime.isoformat`):
characters 0-9 must be a valid `YYYY-MM-DD`; character 10, when present,
is an arbitrary separator; the remainder, when non-empty, must be a valid
ISO time with optional offset. -/
def fromisoformat_ok (v : String) : Bool :=
  let cs := v.toList
  parse_isoformat_date (cs.take 10) &&
    (cs.drop 11 = [] || parse_isoformat_time (cs.drop 11))

/-- `Event.validate_event_id` (models.py:33-38): rejects an `event_id`
that is empty or whitespace-only, returns it unchanged otherwise. -/
def validate_event_id (v : String) : Except String String :=
  if py_blank v then Except.error "event_id tidak boleh kosong"
  else Except.ok v

/-- `v.replace('Z', '+00:00')` (models.py:28): every occurrence of the
character `Z` replaced by `+00:00`. -/
def replace_Z_chars : List Char → List Char
  | [] => []
  | c :: cs =>
    if c = 'Z' then '+' :: '0' :: '0' :: ':' :: '0' :: '0' :: replace_Z_chars cs
    else c :: replace_Z_chars cs

/-- String form of `replace_Z_chars`. -/
def replace_Z (v : String) : String :=
  ⟨replace_Z_chars v.toList⟩

/-- The normalisation as C10's sentence words it: only a trailing `Z` is
replaced by `+00:00`.  Stated from the claim's words, to be compared with
`replace_Z` (what `str.replace` actually does); they differ on strings
with a non-trailing `Z`. -/
def replace_trailing_Z (v : String) : String :=
  if v.toList.getLast? = some 'Z' then
    String.mk (v.toList.dropLast ++ ['+', '0', '0', ':', '0', '0'])
  else v

/-- `Event.validate_timestamp` (models.py:24-31):
`datetime.fromisoformat(v.replace('Z', '+00:00'))` — note `str.replace`
replaces every occurrence of `Z` — accepting iff the parse succeeds, and
returning the original string `v` unchanged. -/
def validate_timestamp (v : String) : Except String String :=
  if fromisoformat_ok (replace_Z v) then Except.ok v
  else Except.error "Timestamp harus dalam format ISO8601"

/-- Construction of a validated `Event` (models.py:18-38): the pydantic
field constraints (`topic`: min_length 1, max_length 255; `event_id`:
min_length 1; `source`: min_length 1) and the two custom validators. -/
def Event.build (topic event_id timestamp source : String)
    (payload : Payload) : Except String Event :=
  if topic.length = 0 || decide (255 < topic.length) then
    Except.error "topic length out of range"
  else if event_id.length = 0 then
    Except.error "event_id min_length"
  else
    match validate_event_id event_id with
    | Except.error msg => Except.error msg
    | Except.ok eid =>
      match validate_timestamp timestamp with
      | Except.error msg => Except.error msg
      | Except.ok ts =>
        if source.length = 0 then Except.error "source min_length"
        else Except.ok ⟨topic, eid, ts, source, payload⟩

/-- A dedup key carried by an in-flight protocol execution. -/
structure Key where
  topic : String
  event_id : String
deriving DecidableEq

/-- Where one worker stands in `EventProcessor._process_event`
(processor.py:86-143) for one dequeued event.  The counter update that
follows each awaited database operation runs in the same scheduling slice
as the operation's resumption and touches state no other step reads, so
it is merged into the operation's step. -/
inductive Phase where
  /-- Dequeued (processor.py:69), about to run `received += 1`. -/
  | toReceive (k : Key)
  /-- `received` counted (processor.py:99), about to await
  `is_processed` (processor.py:102). -/
  | toCheck (k : Key)
  /-- The existence check returned `False`; about to await
  `mark_processed` (processor.py:122). -/
  | toMark (k : Key)
  /-- The protocol for this event is finished. -/
  | done (k : Key)
deriving DecidableEq

/-- `true` on the phases that have incremented `received` but not yet one
of the two outcome counters. -/
def Phase.inflight : Phase → Bool
  | Phase.toCheck _ => true
  | Phase.toMark _ => true
  | _ => false

/-- `true` once the protocol for the event is finished. -/
def Phase.isDone : Phase → Bool
  | Phase.done _ => true
  | _ => false

/-- The dedup key an in-flight execution is working on. -/
def Phase.key : Phase → Key
  | Phase.toReceive k => k
  | Phase.toCheck k => k
  | Phase.toMark k => k
  | Phase.done k => k

/-- The shared state of the worker pool: the dedup store, the `stats`
counters, and the phases of the in-flight protocol executions (one entry
per dequeued event). -/
structure Sys where
  store : Store
  stats : Stats
  threads : List Phase
deriving DecidableEq

/-- Which atomic action a scheduling step performs (`mark` records
whether the environment faulted the SQLite insert on that call;
`checkFault` is an `is_processed` read that raised, the exception being
caught only by the worker loop at processor.py:83-84). -/
inductive Label where
  | recv
  | checkHit
  | checkMiss
  | checkFault
  | mark (fault : Bool)
deriving DecidableEq

/-- The labels on which a database operation faulted. -/
def Label.faulty : Label → Bool
  | Label.checkFault => true
  | Label.mark true => true
  | _ => false

/-- One atomic step of one worker, interleaved arbitrarily with the
others; the chosen worker's phase sits at an arbitrary position
`l ++ _ :: r` of the thread list.  Each constructor is one scheduling
slice of `EventProcessor._process_event`. -/
inductive SysStep : Label → Sys → Sys → Prop where
  /-- `self.stats["received"] += 1` (processor.py:99). -/
  | recv (store : Store) (stats : Stats) (l r : List Phase) (k : Key) :
      SysStep Label.recv
        ⟨store, stats, l ++ Phase.toReceive k :: r⟩
        ⟨store, { stats with received := stats.received + 1 },
          l ++ Phase.toCheck k :: r⟩
  /-- `is_processed` found the row: `duplicate_dropped += 1` and return
  (processor.py:102-111). -/
  | checkHit (store : Store) (stats : Stats) (l r : List Phase) (k : Key)
      (h : is_processed store k.topic k.event_id = true) :
      SysStep Label.checkHit
        ⟨store, stats, l ++ Phase.toCheck k :: r⟩
        ⟨store,
          { stats with duplicate_dropped := stats.duplicate_dropped + 1 },
          l ++ Phase.done k :: r⟩
  /-- `is_processed` found no row: fall through to the mark
  (processor.py:102-122). -/
  | checkMiss (store : Store) (stats : Stats) (l r : List Phase) (k : Key)
      (h : is_processed store k.topic k.event_id = false) :
      SysStep Label.checkMiss
        ⟨store, stats, l ++ Phase.toCheck k :: r⟩
        ⟨store, stats, l ++ Phase.toMark k :: r⟩
  /-- The `is_processed` read raised; nothing in `_process_event` catches
  it, so the event is abandoned with no outcome counter touched
  (processor.py:83-84). -/
  | checkFault (store : Store) (stats : Stats) (l r : List Phase) (k : Key) :
      SysStep Label.checkFault
        ⟨store, stats, l ++ Phase.toCheck k :: r⟩
        ⟨store, stats, l ++ Phase.done k :: r⟩
  /-- `marked = await mark_processed(...)` followed by the counter update
  of whichever branch `marked` selects (processor.py:122-136). -/
  | mark (fault : Bool) (store store' : Store) (stats : Stats)
      (l r : List Phase) (k : Key) (res : Bool)
      (h : mark_processed fault store k.topic k.event_id = (res, store')) :
      SysStep (Label.mark fault)
        ⟨store, stats, l ++ Phase.toMark k :: r⟩
        ⟨store',
          if res then
            { stats with unique_processed := stats.unique_processed + 1 }
          else
            { stats with duplicate_dropped := stats.duplicate_dropped + 1 },
          l ++ Phase.done k :: r⟩

/-- An execution: the list of labels of the atomic steps taken, in
order. -/
inductive Steps : List Label → Sys → Sys → Prop where
  | nil (s : Sys) : Steps [] s s
  | cons {lb : Label} {tr : List Label} {s₁ s₂ s₃ : Sys}
      (hstep : SysStep lb s₁ s₂) (hrest : Steps tr s₂ s₃) :
      Steps (lb :: tr) s₁ s₃

/-- The queue has drained and no worker is mid-protocol: every dequeued
event's protocol has finished. -/
def Quiescent (s : Sys) : Prop :=
  s.threads.all Phase.isDone = true

lemma countP_mid (f : Phase → Bool) (l r : List Phase) (p : Phase) :
    (l ++ p :: r).countP f
      = l.countP f + r.countP f + (f p).toNat := by
  cases hf : f p
  · simp [List.countP_append, List.countP_cons, hf]
  · simp [List.countP_append, List.countP_cons, hf]
    omega

lemma length_mid (l r : List Phase) (p : Phase) :
    (l ++ p :: r).length = l.length + r.length + 1 := by
  simp
  omega

@[simp] lemma inflight_toReceive (k : Key) :
    Phase.inflight (Phase.toReceive k) = false := rfl

@[simp] lemma inflight_toCheck (k : Key) :
    Phase.inflight (Phase.toCheck k) = true := rfl

@[simp] lemma inflight_toMark (k : Key) :
    Phase.inflight (Phase.toMark k) = true := rfl

@[simp] lemma inflight_done (k : Key) :
    Phase.inflight (Phase.done k) = false := rfl

@[simp] lemma isDone_toReceive (k : Key) :
    Phase.isDone (Phase.toReceive k) = false := rfl

@[simp] lemma isDone_toCheck (k : Key) :
    Phase.isDone (Phase.toCheck k) = false := rfl

@[simp] lemma isDone_toMark (k : Key) :
    Phase.isDone (Phase.toMark k) = false := rfl

@[simp] lemma isDone_done (k : Key) :
    Phase.isDone (Phase.done k) = true := rfl

/-- A non-faulting `mark_processed` on a key the store already holds:
the `INSERT OR IGNORE` is ignored and the call reports a duplicate. -/
lemma mark_processed_mem {s : Store} {t e : String}
    (h : is_processed s t e = true) :
    mark_processed false s t e = (false, s) := by
  have hc : (t, e) ∈ s := by simpa [is_processed] using h
  simp [mark_processed, aiosqlite_insert, sqlite_insert_or_ignore, hc]

/-- A non-faulting `mark_processed` on an absent key: the row is inserted
and the call reports success. -/
lemma mark_processed_not_mem {s : Store} {t e : String}
    (h : is_processed s t e = false) :
    mark_processed false s t e = (true, (t, e) :: s) := by
  have hc : (t, e) ∉ s := by simpa [is_processed] using h
  simp [mark_processed, aiosqlite_insert, sqlite_insert_or_ignore, hc]

/-- A faulting `mark_processed`: the `except` clause reports `False` and
the store is unchanged. -/
lemma mark_processed_fault (s : Store) (t e : String) :
    mark_processed true s t e = (false, s) := rfl

/-- The books balance up to the executions still mid-protocol: `received`
exceeds `unique_processed + duplicate_dropped` by exactly the number of
workers between their `received += 1` and their outcome counter. -/
def BalancedInv (s : Sys) : Prop :=
  s.stats.received
    = s.stats.unique_processed + s.stats.duplicate_dropped
        + s.threads.countP Phase.inflight

lemma sysStep_balanced {lb : Label} {s₁ s₂ : Sys} (h : SysStep lb s₁ s₂)
    (hnf : lb ≠ Label.checkFault) (hinv : BalancedInv s₁) : BalancedInv s₂ := by
  cases h with
  | recv store stats l r k =>
      simp [BalancedInv, countP_mid, Phase.inflight] at hinv ⊢
      omega
  | checkHit store stats l r k h =>
      simp [BalancedInv, countP_mid, Phase.inflight] at hinv ⊢
      omega
  | checkMiss store stats l r k h =>
      simp [BalancedInv, countP_mid, Phase.inflight] at hinv ⊢
      omega
  | checkFault store stats l r k =>
      exact absurd rfl hnf
  | mark fault store store' stats l r k res h =>
      cases res <;>
      · simp [BalancedInv, countP_mid, Phase.inflight] at hinv ⊢
        omega

lemma steps_balanced {tr : List Label} {s₁ s₂ : Sys} (h : Steps tr s₁ s₂) :
    Label.checkFault ∉ tr → BalancedInv s₁ → BalancedInv s₂ := by
  induction h with
  | nil => exact fun _ hi => hi
  | cons hstep _ ih =>
      intro hnf hi
      exact ih (fun hm => hnf (List.mem_cons_of_mem _ hm))
        (sysStep_balanced hstep (fun he => hnf (he ▸ List.mem_cons_self _ _)) hi)

lemma quiescent_countP_inflight {s : Sys} (hq : Quiescent s) :
    s.threads.countP Phase.inflight = 0 := by
  rw [List.countP_eq_zero]
  intro p hp
  have hd := List.all_eq_true.mp hq p hp
  cases p <;> simp_all [Phase.isDone, Phase.inflight]

/-- Running invariant of the race of any number of workers on one dedup
key `k₀`, starting from counters `σ0` with `k₀` absent and `n` deliveries
pending: every thread works on `k₀`; `received` has grown by the threads
past their `received += 1`; `unique_processed` has grown by 1 exactly
once the row for `k₀` exists; finished threads have each bumped exactly
one outcome counter; and no thread can finish before the row exists. -/
def RaceInv (k₀ : Key) (σ0 : Stats) (n : Nat) (s : Sys) : Prop :=
  (∀ p ∈ s.threads, p.key = k₀) ∧
  s.threads.length = n ∧
  s.stats.received
    = σ0.received + s.threads.countP Phase.inflight
        + s.threads.countP Phase.isDone ∧
  s.stats.unique_processed
    = σ0.unique_processed
        + (if is_processed s.store k₀.topic k₀.event_id then 1 else 0) ∧
  s.stats.unique_processed + s.stats.duplicate_dropped
    = σ0.unique_processed + σ0.duplicate_dropped
        + s.threads.countP Phase.isDone ∧
  (is_processed s.store k₀.topic k₀.event_id = false →
    s.threads.countP Phase.isDone = 0)

lemma key_mid {k₀ : Key} {l r : List Phase} {p : Phase}
    (h : ∀ q ∈ l ++ p :: r, q.key = k₀) (p' : Phase) (hp' : p'.key = p.key) :
    ∀ q ∈ l ++ p' :: r, q.key = k₀ := by
  intro q hq
  rcases List.mem_append.mp hq with hql | hqr
  · exact h q (List.mem_append.mpr (Or.inl hql))
  · rcases List.mem_cons.mp hqr with hqp | hqr'
    · rw [hqp, hp']
      exact h p (List.mem_append.mpr (Or.inr (List.mem_cons_self _ _)))
    · exact h q (List.mem_append.mpr (Or.inr (List.mem_cons_of_mem _ hqr')))

lemma sysStep_race {k₀ : Key} {σ0 : Stats} {n : Nat} {lb : Label}
    {s₁ s₂ : Sys} (h : SysStep lb s₁ s₂) (hnf : lb.faulty = false)
    (hinv : RaceInv k₀ σ0 n s₁) : RaceInv k₀ σ0 n s₂ := by
  obtain ⟨hkey, hlen, hrecv, huniq, hsum, hdone0⟩ := hinv
  cases h with
  | recv store stats l r k =>
      refine ⟨key_mid hkey _ rfl, ?_, ?_, ?_, ?_, ?_⟩
      · simp only [length_mid] at hlen ⊢
        omega
      · simp only [countP_mid, inflight_toReceive, inflight_toCheck,
          isDone_toReceive, isDone_toCheck, Bool.toNat_false,
          Bool.toNat_true] at hrecv ⊢
        omega
      · exact huniq
      · simp only [countP_mid, isDone_toReceive, isDone_toCheck,
          Bool.toNat_false] at hsum ⊢
        omega
      · intro hm
        have h0 := hdone0 hm
        simp only [countP_mid, isDone_toReceive, isDone_toCheck,
          Bool.toNat_false] at h0 ⊢
        omega
  | checkHit store stats l r k h =>
      have hk : k = k₀ :=
        hkey (Phase.toCheck k)
          (List.mem_append.mpr (Or.inr (List.mem_cons_self _ _)))
      rw [hk] at h
      refine ⟨key_mid hkey _ rfl, ?_, ?_, ?_, ?_, ?_⟩
      · simp only [length_mid] at hlen ⊢
        omega
      · simp only [countP_mid, inflight_toCheck, inflight_done,
          isDone_toCheck, isDone_done, Bool.toNat_false,
          Bool.toNat_true] at hrecv ⊢
        omega
      · exact huniq
      · simp only [countP_mid, isDone_toCheck, isDone_done,
          Bool.toNat_false, Bool.toNat_true] at hsum ⊢
        omega
      · intro hm
        rw [hm] at h
        exact Bool.noConfusion h
  | checkMiss store stats l r k h =>
      refine ⟨key_mid hkey _ rfl, ?_, ?_, ?_, ?_, ?_⟩
      · simp only [length_mid] at hlen ⊢
        omega
      · simp only [countP_mid, inflight_toCheck, inflight_toMark,
          isDone_toCheck, isDone_toMark, Bool.toNat_false,
          Bool.toNat_true] at hrecv ⊢
        omega
      · exact huniq
      · simp only [countP_mid, isDone_toCheck, isDone_toMark,
          Bool.toNat_false] at hsum ⊢
        omega
      · intro hm
        have h0 := hdone0 hm
        simp only [countP_mid, isDone_toCheck, isDone_toMark,
          Bool.toNat_false] at h0 ⊢
        omega
  | checkFault store stats l r k =>
      simp [Label.faulty] at hnf
  | mark fault store store' stats l r k res h =>
      have hk : k = k₀ :=
        hkey (Phase.toMark k)
          (List.mem_append.mpr (Or.inr (List.mem_cons_self _ _)))
      have hfault : fault = false := by
        cases fault
        · rfl
        · simp [Label.faulty] at hnf
      subst hfault
      rw [hk] at h
      by_cases hmem : is_processed store k₀.topic k₀.event_id = true
      · rw [mark_processed_mem hmem] at h
        injection h with hres hstore
        subst hres
        subst hstore
        rw [hmem] at huniq
        show RaceInv k₀ σ0 n
          ⟨store,
            { stats with duplicate_dropped := stats.duplicate_dropped + 1 },
            l ++ Phase.done k :: r⟩
        refine ⟨key_mid hkey _ rfl, ?_, ?_, ?_, ?_, ?_⟩
        · simp only [length_mid] at hlen ⊢
          omega
        · simp only [countP_mid, inflight_toMark, inflight_done,
            isDone_toMark, isDone_done, Bool.toNat_false,
            Bool.toNat_true] at hrecv ⊢
          omega
        · show stats.unique_processed = _
          rw [hmem]
          simpa using huniq
        · simp only [countP_mid, isDone_toMark, isDone_done,
            Bool.toNat_false, Bool.toNat_true] at hsum ⊢
          omega
        · intro hm
          rw [hm] at hmem
          exact Bool.noConfusion hmem
      · have hmem' : is_processed store k₀.topic k₀.event_id = false := by
          cases hx : is_processed store k₀.topic k₀.event_id
          · rfl
          · exact absurd hx hmem
        rw [mark_processed_not_mem hmem'] at h
        injection h with hres hstore
        subst hres
        subst hstore
        rw [hmem'] at huniq
        have hmem2 : is_processed ((k₀.topic, k₀.event_id) :: store)
            k₀.topic k₀.event_id = true := by
          simp [is_processed]
        show RaceInv k₀ σ0 n
          ⟨(k₀.topic, k₀.event_id) :: store,
            { stats with unique_processed := stats.unique_processed + 1 },
            l ++ Phase.done k :: r⟩
        refine ⟨key_mid hkey _ rfl, ?_, ?_, ?_, ?_, ?_⟩
        · simp only [length_mid] at hlen ⊢
          omega
        · simp only [countP_mid, inflight_toMark, inflight_done,
            isDone_toMark, isDone_done, Bool.toNat_false,
            Bool.toNat_true] at hrecv ⊢
          omega
        · show stats.unique_processed + 1 = _
          rw [hmem2]
          simp at huniq ⊢
          omega
        · simp only [countP_mid, isDone_toMark, isDone_done,
            Bool.toNat_false, Bool.toNat_true] at hsum ⊢
          omega
        · intro hm
          rw [hm] at hmem2
          exact Bool.noConfusion hmem2

lemma steps_race {k₀ : Key} {σ0 : Stats} {n : Nat} {tr : List Label}
    {s₁ s₂ : Sys} (h : Steps tr s₁ s₂) :
    (∀ lb ∈ tr, lb.faulty = false) → RaceInv k₀ σ0 n s₁ →
      RaceInv k₀ σ0 n s₂ := by
  induction h with
  | nil => exact fun _ hi => hi
  | cons hstep _ ih =>
      intro hnf hi
      exact ih (fun lb hm => hnf lb (List.mem_cons_of_mem _ hm))
        (sysStep_race hstep (hnf _ (List.mem_cons_self _ _)) hi)

lemma quiescent_countP_done {s : Sys} (hq : Quiescent s) :
    s.threads.countP Phase.isDone = s.threads.length := by
  rw [List.countP_eq_length]
  exact fun p hp => List.all_eq_true.mp hq p hp

lemma sysStep_stats_le {lb : Label} {s₁ s₂ : Sys} (h : SysStep lb s₁ s₂) :
    Stats.le s₁.stats s₂.stats := by
  cases h with
  | recv store stats l r k =>
      exact ⟨Nat.le_succ _, Nat.le_refl _, Nat.le_refl _⟩
  | checkHit store stats l r k h =>
      exact ⟨Nat.le_refl _, Nat.le_refl _, Nat.le_succ _⟩
  | checkMiss store stats l r k h =>
      exact ⟨Nat.le_refl _, Nat.le_refl _, Nat.le_refl _⟩
  | checkFault store stats l r k =>
      exact ⟨Nat.le_refl _, Nat.le_refl _, Nat.le_refl _⟩
  | mark fault store store' stats l r k res h =>
      cases res
      · exact ⟨Nat.le_refl _, Nat.le_refl _, Nat.le_succ _⟩
      · exact ⟨Nat.le_refl _, Nat.le_succ _, Nat.le_refl _⟩

lemma steps_stats_le {tr : List Label} {s₁ s₂ : Sys} (h : Steps tr s₁ s₂) :
    Stats.le s₁.stats s₂.stats := by
  induction h with
  | nil s => exact ⟨Nat.le_refl _, Nat.le_refl _, Nat.le_refl _⟩
  | cons hstep _ ih =>
      have h1 := sysStep_stats_le hstep
      exact ⟨Nat.le_trans h1.1 ih.1, Nat.le_trans h1.2.1 ih.2.1,
        Nat.le_trans h1.2.2 ih.2.2⟩

lemma countP_replicate_toReceive (f : Phase → Bool) (n : Nat) (k : Key)
    (hf : f (Phase.toReceive k) = false) :
    (List.replicate n (Phase.toReceive k)).countP f = 0 := by
  rw [List.countP_eq_zero]
  intro p hp
  rw [List.eq_of_mem_replicate hp, hf]
  exact Bool.false_ne_true

/-- Whether pydantic accepted the construction. -/
def buildOk (r : Except String Event) : Bool :=
  match r with
  | Except.ok _ => true
  | Except.error _ => false

/-- C9: `get_stats` returns exactly the counters as they stand at the
moment of the call, as a value that no later protocol step can alter; and
along any execution the three counters — naturals, hence non-negative —
never decrease. -/
theorem get_stats_snapshot_monotone (tr : List Label) (s₁ s₂ : Sys)
    (hsteps : Steps tr s₁ s₂) :
    get_stats s₁.stats = s₁.stats ∧
      Stats.le (get_stats s₁.stats) (get_stats s₂.stats) :=
  ⟨rfl, steps_stats_le hsteps⟩

theorem get_stats_snapshot_monotone_witness :
    get_stats (Sys.mk [] ⟨0, 0, 0⟩
        [Phase.toReceive ⟨"orders", "evt-1"⟩]).stats
      = (Sys.mk [] ⟨0, 0, 0⟩ [Phase.toReceive ⟨"orders", "evt-1"⟩]).stats ∧
    Stats.le
      (get_stats (Sys.mk [] ⟨0, 0, 0⟩
        [Phase.toReceive ⟨"orders", "evt-1"⟩]).stats)
      (get_stats (Sys.mk [] ⟨1, 0, 0⟩
        [Phase.toCheck ⟨"orders", "evt-1"⟩]).stats) :=
  get_stats_snapshot_monotone [Label.recv] _ _
    (Steps.cons
      (SysStep.recv [] ⟨0, 0, 0⟩ [] [] ⟨"orders", "evt-1"⟩)
      (Steps.nil _))

/-- C10 counterexample to the claim as stated: the timestamp
`2024-01-02 03:04Z:05` has no trailing `Z`, so after replacing a trailing
`Z` it is unchanged and fails the ISO-8601 parse — the claim therefore
demands its rejection — yet `Event` construction accepts it, because
`str.replace` substitutes the non-trailing `Z` as well, producing the
parseable `2024-01-02 03:04+00:00:05`. -/
theorem event_validation_trailing_Z_refuted :
    fromisoformat_ok (replace_trailing_Z "2024-01-02 03:04Z:05") = false ∧
    validate_timestamp "2024-01-02 03:04Z:05"
      = Except.ok "2024-01-02 03:04Z:05" ∧
    Event.build "orders" "evt-1" "2024-01-02 03:04Z:05" "svc" []
      = Except.ok
          ⟨"orders", "evt-1", "2024-01-02 03:04Z:05", "svc", []⟩ := by
  exact ⟨rfl, rfl, rfl⟩

/-- C10 as amended: `Event` construction rejects any `event_id` that is
empty or whitespace-only (the full `str.strip()` whitespace set), rejects
any timestamp whose form after replacing every occurrence of `Z` with
`+00:00` — what `str.replace` does — fails the ISO-8601 parse, and a
validated event stores the `event_id` (and the other fields)
unchanged. -/
theorem event_validation (eid eid' ts ts' : String)
    (hblank : py_blank eid = true)
    (hok : py_blank eid' = false)
    (hbad : fromisoformat_ok (replace_Z ts) = false)
    (hgood : fromisoformat_ok (replace_Z ts') = true) :
    buildOk (Event.build "orders" eid ts' "svc" []) = false ∧
    buildOk (Event.build "orders" eid' ts "svc" []) = false ∧
    Event.build "orders" eid' ts' "svc" []
      = Except.ok ⟨"orders", eid', ts', "svc", []⟩ := by
  have htopic : (("orders".length = 0 : Bool)
      || decide (255 < "orders".length)) = false := by decide
  have hne : ¬eid'.length = 0 := by
    intro h0
    have hd : eid'.data = [] := List.length_eq_zero.mp h0
    have hb : py_blank eid' = true := by
      unfold py_blank String.toList
      rw [hd]
      rfl
    rw [hb] at hok
    exact Bool.noConfusion hok
  refine ⟨?_, ?_, ?_⟩
  · unfold Event.build
    by_cases he : eid.length = 0
    · simp [htopic, he, buildOk]
    · simp [htopic, he, validate_event_id, hblank, buildOk]
  · unfold Event.build
    simp [htopic, hne, validate_event_id, hok, validate_timestamp, hbad,
      buildOk]
  · unfold Event.build
    have hsrc : ¬"svc".length = 0 := by decide
    simp [htopic, hne, validate_event_id, hok, validate_timestamp, hgood,
      hsrc]

theorem event_validation_witness :
    (py_blank "  " = true ∧ py_blank "evt-1" = false ∧
     fromisoformat_ok (replace_Z "not-a-timestamp") = false ∧
     fromisoformat_ok (replace_Z "2024-01-02T03:04:05Z") = true) ∧
    (buildOk (Event.build "orders" "  " "2024-01-02T03:04:05Z" "svc" [])
        = false ∧
     buildOk (Event.build "orders" "evt-1" "not-a-timestamp" "svc" [])
        = false ∧
     Event.build "orders" "evt-1" "2024-01-02T03:04:05Z" "svc" []
        = Except.ok ⟨"orders", "evt-1", "2024-01-02T03:04:05Z", "svc", []⟩) :=
  ⟨⟨rfl, rfl, rfl, rfl⟩,
    event_validation "  " "evt-1" "not-a-timestamp" "2024-01-02T03:04:05Z"
      rfl rfl rfl rfl⟩

/-- C1: for any dedup key not initially in the store, delivering it `n`
times (n ≥ 1) and running the worker protocol to quiescence under any
interleaving of the workers' atomic steps (with no store fault) yields
exactly one `unique_processed` increment and `n - 1` `duplicate_dropped`
increments, with `received` grown by `n`. -/
theorem dedup_exactly_once (k₀ : Key) (n : Nat) (σ0 : Stats)
    (store0 : Store) (tr : List Label) (final : Sys)
    (hn : 1 ≤ n)
    (habs : is_processed store0 k₀.topic k₀.event_id = false)
    (hsteps : Steps tr
      ⟨store0, σ0, List.replicate n (Phase.toReceive k₀)⟩ final)
    (hnf : ∀ lb ∈ tr, lb.faulty = false)
    (hq : Quiescent final) :
    final.stats.received = σ0.received + n ∧
    final.stats.unique_processed = σ0.unique_processed + 1 ∧
    final.stats.duplicate_dropped = σ0.duplicate_dropped + (n - 1) := by
  have hA0 := countP_replicate_toReceive Phase.inflight n k₀ rfl
  have hD0 := countP_replicate_toReceive Phase.isDone n k₀ rfl
  have hinit : RaceInv k₀ σ0 n
      ⟨store0, σ0, List.replicate n (Phase.toReceive k₀)⟩ := by
    refine ⟨?_, ?_, ?_, ?_, ?_, ?_⟩
    · intro p hp
      rw [List.eq_of_mem_replicate hp]
      rfl
    · exact List.length_replicate n _
    · simp [hA0, hD0]
    · rw [habs]
      simp
    · simp [hD0]
    · intro _
      exact hD0
  obtain ⟨hkey, hlen, hrecv, huniq, hsum, hdone0⟩ :=
    steps_race hsteps hnf hinit
  have hD : final.threads.countP Phase.isDone = final.threads.length :=
    quiescent_countP_done hq
  have hA : final.threads.countP Phase.inflight = 0 :=
    quiescent_countP_inflight hq
  have hmem : is_processed final.store k₀.topic k₀.event_id = true := by
    cases hx : is_processed final.store k₀.topic k₀.event_id
    · have h0 := hdone0 hx
      rw [hD, hlen] at h0
      omega
    · rfl
  rw [hmem] at huniq
  simp at huniq
  rw [hD, hlen] at hrecv hsum
  rw [hA] at hrecv
  refine ⟨by omega, huniq, by omega⟩

/-- C3: starting the counters at zero with any list of dequeued events
pending, any interleaved execution that reaches quiescence without an
`is_processed` read fault satisfies
`received = unique_processed + duplicate_dropped` (a faulting
`mark_processed` is fine: the worker still counts the event, as a
duplicate). -/
theorem counters_balance_at_quiescence (ks : List Key) (store0 : Store)
    (tr : List Label) (final : Sys)
    (hsteps : Steps tr ⟨store0, ⟨0, 0, 0⟩, ks.map Phase.toReceive⟩ final)
    (hnf : Label.checkFault ∉ tr)
    (hq : Quiescent final) :
    final.stats.received
      = final.stats.unique_processed + final.stats.duplicate_dropped := by
  have hinit : BalancedInv ⟨store0, ⟨0, 0, 0⟩, ks.map Phase.toReceive⟩ := by
    show (0 : Nat) = 0 + 0 + (ks.map Phase.toReceive).countP Phase.inflight
    rw [List.countP_eq_zero.mpr]
    intro p hp
    obtain ⟨k, _, rfl⟩ := List.mem_map.mp hp
    simp
  have hfin := steps_balanced hsteps hnf hinit
  have hA := quiescent_countP_inflight hq
  unfold BalancedInv at hfin
  omega

/-- C2: a non-faulting `mark_processed` is insert-if-absent on the store:
it returns `True` exactly when the `(topic, event_id)` pair was absent
before the call, the pair is present after the call, and a `False` return
leaves the store unchanged (the if-then-else in the second conjunct). -/
theorem mark_processed_insert_if_absent (s : Store) (t e : String) :
    (mark_processed false s t e).1 = !(is_processed s t e) ∧
    (mark_processed false s t e).2
      = (if is_processed s t e then s else (t, e) :: s) ∧
    is_processed (mark_processed false s t e).2 t e = true := by
  by_cases h : is_processed s t e = true
  · rw [mark_processed_mem h]
    simp [h]
  · have h' : is_processed s t e = false := by
      cases hx : is_processed s t e
      · rfl
      · exact absurd hx h
    have hm : (t, e) ∉ s := by simpa [is_processed] using h'
    rw [mark_processed_not_mem h']
    simp [hm, is_processed]

/-- C4 (refuting the claim as stated): with the queue at its capacity and
nothing draining it, `publish_event` does not return the queue-full
rejection — `await event_queue.put(event)` suspends the handler until
space frees (the `except asyncio.QueueFull` branch is unreachable), so
the publish blocks instead of failing immediately. -/
theorem publish_full_queue_blocks :
    publish_event 1 [⟨"orders", "evt-1", "2024-01-02T03:04:05Z", "svc", []⟩]
        ⟨"orders", "evt-2", "2024-01-02T03:04:06Z", "svc", []⟩
      = PublishResult.awaitingSpace ∧
    publish_event 1 [⟨"orders", "evt-1", "2024-01-02T03:04:05Z", "svc", []⟩]
        ⟨"orders", "evt-2", "2024-01-02T03:04:06Z", "svc", []⟩
      ≠ PublishResult.rejectedQueueFull := by
  exact ⟨rfl, by decide⟩

/-- C5 (refuting the claim as stated): when the SQLite insert faults on a
key the store does not hold, `mark_processed` swallows the exception
(database.py:111-113) and returns the ordinary boolean `False` — the
duplicate verdict — with the store unchanged, instead of reporting the
fault to its caller. -/
theorem mark_processed_fault_returns_false :
    aiosqlite_insert true [] "orders" "evt-1"
        = Except.error "sqlite I/O error" ∧
      mark_processed true [] "orders" "evt-1" = (false, []) := by
  exact ⟨rfl, rfl⟩

/-- C6 (refuting the claim as stated): a dequeued event whose
`mark_processed` call faults ends the protocol with `duplicate_dropped`
incremented (the swallowed fault surfaced as `marked = False`, taken as a
lost race at processor.py:130-136), not with neither counter touched. -/
theorem process_event_fault_counts_duplicate :
    process_event true ⟨0, 0, 0⟩ []
        ⟨"orders", "evt-1", "2024-01-02T03:04:05Z", "svc", []⟩
      = (⟨1, 0, 1⟩, []) := by
  rfl

/-- C7: once a non-faulting `mark_processed` has returned `True` for a
pair, reopening the store over the same file (`init_db` on the persisted
rows, modelling `Database(db_path)` after a restart) still reports the
pair via `is_processed`, and a fresh `mark_processed` on it returns
`False`. -/
theorem dedup_survives_reopen (s : Store) (t e : String)
    (habs : is_processed s t e = false) :
    (mark_processed false s t e).1 = true ∧
    is_processed (init_db (some (mark_processed false s t e).2)) t e
      = true ∧
    (mark_processed false
        (init_db (some (mark_processed false s t e).2)) t e).1 = false := by
  rw [mark_processed_not_mem habs]
  have hmem : is_processed ((t, e) :: s) t e = true := by
    simp [is_processed]
  refine ⟨rfl, hmem, ?_⟩
  rw [show init_db (some ((t, e) :: s)) = (t, e) :: s from rfl,
    mark_processed_mem hmem]

theorem dedup_survives_reopen_witness :
    is_processed [] "orders" "evt-1" = false ∧
    ((mark_processed false [] "orders" "evt-1").1 = true ∧
     is_processed
        (init_db (some (mark_processed false [] "orders" "evt-1").2))
        "orders" "evt-1" = true ∧
     (mark_processed false
        (init_db (some (mark_processed false [] "orders" "evt-1").2))
        "orders" "evt-1").1 = false) :=
  ⟨rfl, dedup_survives_reopen [] "orders" "evt-1" rfl⟩

/-- C8: deduplication is scoped per topic — for two distinct topics, the
same `event_id` marks successfully on both (the `UNIQUE(topic, event_id)`
constraint keys on the pair, not on `event_id` alone). -/
theorem dedup_scoped_per_topic (s : Store) (t1 t2 e : String)
    (hne : t1 ≠ t2)
    (h1 : is_processed s t1 e = false)
    (h2 : is_processed s t2 e = false) :
    (mark_processed false s t1 e).1 = true ∧
    (mark_processed false (mark_processed false s t1 e).2 t2 e).1
      = true := by
  rw [mark_processed_not_mem h1]
  have h2' : is_processed ((t1, e) :: s) t2 e = false := by
    have hm : (t2, e) ∉ s := by simpa [is_processed] using h2
    simp [is_processed]
    exact ⟨fun heq => hne heq.symm, hm⟩
  rw [mark_processed_not_mem h2']
  exact ⟨rfl, rfl⟩

theorem dedup_scoped_per_topic_witness :
    ("payments" ≠ "orders" ∧
     is_processed [] "payments" "evt-1" = false ∧
     is_processed [] "orders" "evt-1" = false) ∧
    ((mark_processed false [] "payments" "evt-1").1 = true ∧
     (mark_processed false (mark_processed false [] "payments" "evt-1").2
        "orders" "evt-1").1 = true) :=
  ⟨⟨by decide, rfl, rfl⟩,
    dedup_scoped_per_topic [] "payments" "orders" "evt-1" (by decide)
      rfl rfl⟩

theorem dedup_exactly_once_witness :
    (1 ≤ 2 ∧
     is_processed [] "orders" "evt-1" = false ∧
     Quiescent ⟨[("orders", "evt-1")], ⟨2, 1, 1⟩,
       [Phase.done ⟨"orders", "evt-1"⟩, Phase.done ⟨"orders", "evt-1"⟩]⟩) ∧
    ((Sys.mk [("orders", "evt-1")] ⟨2, 1, 1⟩
        [Phase.done ⟨"orders", "evt-1"⟩,
         Phase.done ⟨"orders", "evt-1"⟩]).stats.received
        = (Stats.mk 0 0 0).received + 2 ∧
     (Sys.mk [("orders", "evt-1")] ⟨2, 1, 1⟩
        [Phase.done ⟨"orders", "evt-1"⟩,
         Phase.done ⟨"orders", "evt-1"⟩]).stats.unique_processed
        = (Stats.mk 0 0 0).unique_processed + 1 ∧
     (Sys.mk [("orders", "evt-1")] ⟨2, 1, 1⟩
        [Phase.done ⟨"orders", "evt-1"⟩,
         Phase.done ⟨"orders", "evt-1"⟩]).stats.duplicate_dropped
        = (Stats.mk 0 0 0).duplicate_dropped + (2 - 1)) := by
  refine ⟨⟨by decide, rfl, rfl⟩, ?_⟩
  refine dedup_exactly_once ⟨"orders", "evt-1"⟩ 2 ⟨0, 0, 0⟩ []
    [Label.recv, Label.recv, Label.checkMiss, Label.checkMiss,
     Label.mark false, Label.mark false]
    ⟨[("orders", "evt-1")], ⟨2, 1, 1⟩,
      [Phase.done ⟨"orders", "evt-1"⟩, Phase.done ⟨"orders", "evt-1"⟩]⟩
    (by decide) rfl ?_ (by decide) rfl
  exact Steps.cons
    (SysStep.recv [] ⟨0, 0, 0⟩ [] [Phase.toReceive ⟨"orders", "evt-1"⟩]
      ⟨"orders", "evt-1"⟩)
    (Steps.cons
      (SysStep.recv [] ⟨1, 0, 0⟩ [Phase.toCheck ⟨"orders", "evt-1"⟩] []
        ⟨"orders", "evt-1"⟩)
      (Steps.cons
        (SysStep.checkMiss [] ⟨2, 0, 0⟩ []
          [Phase.toCheck ⟨"orders", "evt-1"⟩] ⟨"orders", "evt-1"⟩ rfl)
        (Steps.cons
          (SysStep.checkMiss [] ⟨2, 0, 0⟩
            [Phase.toMark ⟨"orders", "evt-1"⟩] [] ⟨"orders", "evt-1"⟩ rfl)
          (Steps.cons
            (SysStep.mark false [] [("orders", "evt-1")] ⟨2, 0, 0⟩ []
              [Phase.toMark ⟨"orders", "evt-1"⟩] ⟨"orders", "evt-1"⟩ true
              rfl)
            (Steps.cons
              (SysStep.mark false [("orders", "evt-1")]
                [("orders", "evt-1")] ⟨2, 1, 0⟩
                [Phase.done ⟨"orders", "evt-1"⟩] [] ⟨"orders", "evt-1"⟩
                false (by decide))
              (Steps.nil _))))))

theorem counters_balance_witness :
    (Label.checkFault ∉ [Label.recv, Label.checkMiss, Label.mark false] ∧
     Quiescent ⟨[("a", "1")], ⟨1, 1, 0⟩, [Phase.done ⟨"a", "1"⟩]⟩) ∧
    (Sys.mk [("a", "1")] ⟨1, 1, 0⟩ [Phase.done ⟨"a", "1"⟩]).stats.received
      = (Sys.mk [("a", "1")] ⟨1, 1, 0⟩
          [Phase.done ⟨"a", "1"⟩]).stats.unique_processed
        + (Sys.mk [("a", "1")] ⟨1, 1, 0⟩
            [Phase.done ⟨"a", "1"⟩]).stats.duplicate_dropped := by
  refine ⟨⟨by decide, rfl⟩, ?_⟩
  refine counters_balance_at_quiescence [⟨"a", "1"⟩] []
    [Label.recv, Label.checkMiss, Label.mark false]
    ⟨[("a", "1")], ⟨1, 1, 0⟩, [Phase.done ⟨"a", "1"⟩]⟩ ?_ (by decide)
    rfl
  exact Steps.cons (SysStep.recv [] ⟨0, 0, 0⟩ [] [] ⟨"a", "1"⟩)
    (Steps.cons (SysStep.checkMiss [] ⟨1, 0, 0⟩ [] [] ⟨"a", "1"⟩ rfl)
      (Steps.cons
        (SysStep.mark false [] [("a", "1")] ⟨1, 0, 0⟩ [] [] ⟨"a", "1"⟩
          true rfl)
        (Steps.nil _)))
